import Mathlib

/-!
Verification development for the voice capture and orchestration pipeline of the
duckdb-whisper extension.  The definitions below are shallow embeddings of the
C++ sources: `src/audio_recorder.cpp` (silence-gated recorder, amplitude
estimator, endpointing poll loop), `src/voice_query/http_client.cpp` (JSON
request building and response parsing), and
`src/voice_query/voice_to_sql_function.cpp` /
`src/voice_query/voice_query_function.cpp` (pipeline orchestrator and result
shaping).  External collaborators (SDL capture device, whisper inference
engine, HTTP transport, catalog) are modelled as opaque inputs, exactly at the
boundaries the orchestrator sees.
-/

/-! ## JSON helpers (`http_client.cpp`)

`EscapeJsonString`, `BuildJsonRequest`, `ParseJsonStringValue` and
`ParseSqlFromJson` are direct translations of the pointer-walking C code.
Strings are modelled as their character lists; the two scanning loops of
`ParseSqlFromJson` that are not structurally terminating in the source (the
nested object/array skippers and the outer key scan) take an explicit fuel
argument, with `none` meaning the C loop would still be running. -/

/-- Default-locale `std::isspace`: space, \t, \n, \v, \f, \r. -/
def isSpaceC (c : Char) : Bool :=
  c = ' ' || c = '\t' || c = '\n' || c = Char.ofNat 11 || c = Char.ofNat 12 || c = '\r'

/-- Hex digit as printed by `std::hex` on `0..15`. -/
def hexDigit (n : Nat) : Char :=
  if n < 10 then Char.ofNat (48 + n) else Char.ofNat (87 + n)

/-- Escape expansion of one character, per the `switch` in `EscapeJsonString`. -/
def escapeChar (c : Char) : List Char :=
  if c = '\"' then ['\\', '\"']
  else if c = '\\' then ['\\', '\\']
  else if c = Char.ofNat 8 then ['\\', 'b']
  else if c = Char.ofNat 12 then ['\\', 'f']
  else if c = '\n' then ['\\', 'n']
  else if c = '\r' then ['\\', 'r']
  else if c = '\t' then ['\\', 't']
  else if c.toNat < 32 then ['\\', 'u', '0', '0', hexDigit ((c.toNat >>> 4) % 16), hexDigit (c.toNat % 16)]
  else [c]

/-- Character-list form of `EscapeJsonString`'s loop over the input. -/
def escapeList : List Char → List Char
  | [] => []
  | c :: rest => escapeChar c ++ escapeList rest

/-- `EscapeJsonString` from `http_client.cpp`. -/
def EscapeJsonString (s : String) : String :=
  String.mk (escapeList s.data)

/-- `BuildJsonRequest` from `http_client.cpp`:
the body is `\x7b"ddl":"<escaped ddl>","question":"<escaped question>"\x7d`. -/
def BuildJsonRequest (ddl question : String) : String :=
  "\x7b\"ddl\":\"" ++ EscapeJsonString ddl ++ "\",\"question\":\"" ++ EscapeJsonString question ++ "\"\x7d"

/-- Inverse mapping of the escape `switch` in `ParseJsonStringValue`
(the `default:` arm keeps the character itself). -/
def unescapeChar (c : Char) : Char :=
  if c = '\"' then '\"'
  else if c = '\\' then '\\'
  else if c = '/' then '/'
  else if c = 'b' then Char.ofNat 8
  else if c = 'f' then Char.ofNat 12
  else if c = 'n' then '\n'
  else if c = 'r' then '\r'
  else if c = 't' then '\t'
  else c

/-- Body loop of `ParseJsonStringValue`: consumes characters up to (and
including) the closing quote, accumulating the decoded value.  A `\uXXXX`
escape with all four hex digits present is skipped and contributes nothing
("Just skip for now" in the source); with fewer than four characters after the
`u` only the `u` is consumed.  A trailing lone backslash is kept literally. -/
def pjsvGo : List Char → List Char → List Char × List Char
  | [], acc => (acc, [])
  | '\"' :: rest, acc => (acc, rest)
  | ['\\'], acc => (acc ++ ['\\'], [])
  | '\\' :: 'u' :: _h1 :: _h2 :: _h3 :: _h4 :: rest3, acc => pjsvGo rest3 acc
  | '\\' :: 'u' :: rest2, acc => pjsvGo rest2 acc
  | '\\' :: c2 :: rest2, acc => pjsvGo rest2 (acc ++ [unescapeChar c2])
  | c :: rest, acc => pjsvGo rest (acc ++ [c])

/-- `ParseJsonStringValue` from `http_client.cpp`: expects to be positioned at
an opening quote (otherwise returns `""` without consuming input); returns the
decoded string and the remaining input after the closing quote. -/
def ParseJsonStringValue (cs : List Char) : String × List Char :=
  match cs with
  | '\"' :: rest =>
    let p := pjsvGo rest []
    (String.mk p.1, p.2)
  | _ => ("", cs)

/-- Scalar-value skipper of `ParseSqlFromJson` (numbers, booleans, null):
advances until `,`, `\x7d` or whitespace. -/
def skipScalarC : List Char → List Char
  | [] => []
  | c :: rest => if c = ',' || c = Char.ofNat 125 || isSpaceC c then c :: rest else skipScalarC rest

/-- Leading-whitespace skipper (`SkipWhitespace` in the source). -/
def skipWsC : List Char → List Char
  | [] => []
  | c :: rest => if isSpaceC c then skipWsC rest else c :: rest

/-- Nested object/array skipper of `ParseSqlFromJson`.  Faithful to the source,
including the fact that the `depth++`/`depth--` branches do not advance the
cursor: an opening bracket is re-examined forever (hence the fuel), and the
loop exits with the cursor still on the closing bracket that brought the depth
to zero. -/
def skipNested (openC closeC : Char) : Nat → Nat → List Char → Option (List Char)
  | 0, _, _ => none
  | _fuel + 1, 0, cs => some cs
  | fuel + 1, depth + 1, cs =>
    match cs with
    | [] => some []
    | c :: rest =>
      if c = openC then skipNested openC closeC fuel (depth + 2) (c :: rest)
      else if c = closeC then skipNested openC closeC fuel depth (c :: rest)
      else if c = '\"' then skipNested openC closeC fuel (depth + 1) (ParseJsonStringValue (c :: rest)).2
      else skipNested openC closeC fuel (depth + 1) rest

/-- Key-scanning loop of `ParseSqlFromJson`, entered just after the opening
brace.  `some s` is the string the C function returns; `none` means the C loop
would never terminate (which it does not on a skipped value that nests the
same bracket type two deep). -/
def sqlScanLoop : Nat → List Char → Option String
  | 0, _ => none
  | fuel + 1, cs0 =>
    let cs := skipWsC cs0
    match cs with
    | [] => some ""
    | c :: rest =>
      if c = Char.ofNat 125 then some ""
      else if c = ',' then sqlScanLoop fuel rest
      else if c = '\"' then
        let p := ParseJsonStringValue cs
        let key := p.1
        let cs1 := skipWsC p.2
        match cs1 with
        | [] => sqlScanLoop fuel cs1
        | c1 :: rest1 =>
          if c1 = ':' then
            let cs2 := skipWsC rest1
            if key = "sql" then
              match cs2 with
              | '\"' :: _ => some (ParseJsonStringValue cs2).1
              | _ => some ""
            else
              match cs2 with
              | '\"' :: _ => sqlScanLoop fuel (ParseJsonStringValue cs2).2
              | '\x7b' :: r2 =>
                match skipNested '\x7b' (Char.ofNat 125) fuel 1 r2 with
                | none => none
                | some cs3 => sqlScanLoop fuel cs3
              | '[' :: r2 =>
                match skipNested '[' ']' fuel 1 r2 with
                | none => none
                | some cs3 => sqlScanLoop fuel cs3
              | _ => sqlScanLoop fuel (skipScalarC cs2)
          else sqlScanLoop fuel cs1
      else sqlScanLoop fuel rest

/-- `ParseSqlFromJson` from `http_client.cpp`: skips leading whitespace,
requires an opening brace (else returns `""`), then scans for a string field
keyed `"sql"`.  `none` models non-termination of the C loop. -/
def ParseSqlFromJson (fuel : Nat) (json : String) : Option String :=
  match skipWsC json.data with
  | '\x7b' :: rest => sqlScanLoop fuel rest
  | _ => some ""

/-! ## Amplitude estimator (`AudioRecorder::AudioCallback`)

The SDL callback receives a chunk of signed 16-bit samples; each is normalized
by dividing by 32768, appended to the buffer, and its square accumulated.  The
root-mean-square of the chunk is stored as the current amplitude only when the
chunk is non-empty. -/

/-- Normalization of one int16 sample, `sample / 32768.0`. -/
def normSample (v : Int) : ℚ := (v : ℚ) / 32768

/-- Sum of squares of the normalized samples of one chunk. -/
def sumSquares (chunk : List Int) : ℚ :=
  (chunk.map fun v => normSample v * normSample v).sum

/-- RMS of a chunk, `sqrt(sum_squares / num_samples)`. -/
noncomputable def chunkRMS (chunk : List Int) : ℝ :=
  Real.sqrt ((sumSquares chunk : ℝ) / (chunk.length : ℝ))

/-- Published current amplitude after `AudioCallback` handles `chunk`:
the chunk RMS when the chunk is non-empty, the previous value otherwise
(the `if (num_samples > 0)` guard around the store). -/
noncomputable def audioCallbackAmp (oldAmp : ℝ) (chunk : List Int) : ℝ :=
  if 0 < chunk.length then chunkRMS chunk else oldAmp

/-- Buffer contents after `AudioCallback` handles `chunk`: normalized samples
are appended in order. -/
def audioCallbackBuffer (buf : List ℚ) (chunk : List Int) : List ℚ :=
  buf ++ chunk.map normSample

/-! ## Recorder session lifecycle (`StartRecording` / `StopRecording`) -/

/-- Recorder state relevant to the session lifecycle: the capturing flag, the
accumulated sample buffer, and the SDL device id (0 = no open device). -/
structure RecorderState where
  recording : Bool
  buffer : List ℚ
  deviceId : Nat
deriving DecidableEq

/-- `AudioRecorder::StartRecording`.  `openResult` is the outcome of
`SDL_OpenAudioDevice`: the obtained (non-zero) device id, or the SDL error
text.  The already-recording check precedes the open attempt, as in the
source; on success the buffer is cleared and the capturing flag set. -/
def StartRecording (s : RecorderState) (openResult : Except String Nat) :
    RecorderState × Except String Unit :=
  if s.recording then (s, .error "Already recording")
  else
    match openResult with
    | .error e => (s, .error ("Failed to open audio device: " ++ e))
    | .ok dev => (⟨true, [], dev⟩, .ok ())

/-- `AudioRecorder::StopRecording`. Fails if not recording; otherwise clears
the capturing flag and closes the device, then fails if the buffer is empty,
else moves the buffer out (leaving it empty) and returns it. -/
def StopRecording (s : RecorderState) : RecorderState × Except String (List ℚ) :=
  if s.recording then
    if s.buffer = [] then (⟨false, s.buffer, 0⟩, .error "No audio data recorded")
    else (⟨false, [], 0⟩, .ok s.buffer)
  else (s, .error "Not recording")

/-! ## Endpointing poll loop (`AudioRecorder::RecordUntilSilence`)

The loop polls every 50 ms; poll `i` observes elapsed time `time i` and the
published amplitude `amp i` (both abstracted as functions of the poll index).
`hadSound` and `silStart` mirror the locals `had_sound` and `silence_start`
(`none` = `-1.0`).  The fuel bounds how many polls we unfold; `none` means the
loop was still running after that many polls.  Times and amplitudes live in
arbitrary linearly ordered types (the source uses `double` / `float`; the
loop only ever compares them and subtracts two times), so theorems hold for
any instantiation and concrete traces can use `ℤ` in milliseconds. -/

/-- Why the poll loop stopped. -/
inductive ExitReason where
  | maxDuration : ExitReason
  | endpointed : ExitReason
deriving DecidableEq

/-- The poll loop of `RecordUntilSilence`.  Each iteration: stop if the max
duration is reached; else if the amplitude exceeds the threshold, record that
sound happened and reset the silence timer; else if sound had happened, start
the silence timer, or stop once the timed silence reaches `silDur`. -/
def recordPollLoop {τ A : Type} [LinearOrder τ] [Sub τ] [LinearOrder A]
    (time : Nat → τ) (amp : Nat → A) (maxDur silDur : τ) (thr : A) :
    Nat → Bool → Option τ → Nat → Option (ExitReason × Nat)
  | 0, _, _, _ => none
  | fuel + 1, hadSound, silStart, i =>
    if maxDur ≤ time i then some (.maxDuration, i)
    else if thr < amp i then
      recordPollLoop time amp maxDur silDur thr fuel true none (i + 1)
    else if hadSound then
      match silStart with
      | none => recordPollLoop time amp maxDur silDur thr fuel hadSound (some (time i)) (i + 1)
      | some s =>
        if silDur ≤ time i - s then some (.endpointed, i)
        else recordPollLoop time amp maxDur silDur thr fuel hadSound silStart (i + 1)
    else recordPollLoop time amp maxDur silDur thr fuel hadSound silStart (i + 1)

/-! ## Poll loop lemmas -/

section PollLoopLemmas

variable {τ A : Type} [LinearOrder τ] [Sub τ] [LinearOrder A]
variable (time : Nat → τ) (amp : Nat → A) (maxDur silDur : τ) (thr : A)

/-- The endpointing outcome promised by the spec: some poll `l` before `k` was
loud, every poll from `k` through the exit poll `j` was at or below the
threshold, and the silence interval measured by the loop reached `silDur`. -/
def SoundThenSilence (j : Nat) : Prop :=
  ∃ k, k ≤ j ∧ (∃ l, l < k ∧ thr < amp l) ∧ (∀ m, k ≤ m → m ≤ j → amp m ≤ thr) ∧
    silDur ≤ time j - time k

/-- Loop invariant of the poll loop relating `had_sound` and `silence_start`
to the amplitude history. -/
def PollInv (hadSound : Bool) (silStart : Option τ) (i : Nat) : Prop :=
  (hadSound = true → ∃ l, l < i ∧ thr < amp l) ∧
  ∀ s, silStart = some s →
    hadSound = true ∧ ∃ k, k < i ∧ s = time k ∧
      ∀ m, k ≤ m → m < i → amp m ≤ thr

lemma pollLoop_endpointed_of_inv :
    ∀ fuel hadSound silStart i j,
      PollInv time amp thr hadSound silStart i →
      recordPollLoop time amp maxDur silDur thr fuel hadSound silStart i =
        some (ExitReason.endpointed, j) →
      SoundThenSilence time amp silDur thr j := by
  intro fuel
  induction fuel with
  | zero =>
    intro hadSound silStart i j _ h
    rw [recordPollLoop.eq_1] at h
    cases h
  | succ n ih =>
    intro hadSound silStart i j hinv h
    cases silStart with
    | none =>
      rw [recordPollLoop.eq_2] at h
      by_cases hmax : maxDur ≤ time i
      · rw [if_pos hmax] at h
        simp at h
      · rw [if_neg hmax] at h
        by_cases hloud : thr < amp i
        · rw [if_pos hloud] at h
          refine ih true none (i + 1) j ⟨fun _ => ⟨i, Nat.lt_succ_self i, hloud⟩, ?_⟩ h
          intro s hs
          cases hs
        · rw [if_neg hloud] at h
          have hquiet : amp i ≤ thr := not_lt.mp hloud
          cases hadSound with
          | false =>
            rw [if_neg (by simp)] at h
            refine ih false none (i + 1) j ⟨fun hc => absurd hc Bool.false_ne_true, fun s hs => Option.noConfusion hs⟩ h
          | true =>
            rw [if_pos rfl] at h
            refine ih true (some (time i)) (i + 1) j ⟨fun _ => ?_, fun s hs => ?_⟩ h
            · obtain ⟨l, hl, hla⟩ := hinv.1 rfl
              exact ⟨l, Nat.lt_succ_of_lt hl, hla⟩
            · cases hs
              refine ⟨rfl, i, Nat.lt_succ_self i, rfl, ?_⟩
              intro m hm hm'
              have hmi : m = i := Nat.le_antisymm (Nat.lt_succ_iff.mp hm') hm
              exact hmi ▸ hquiet
    | some s =>
      rw [recordPollLoop.eq_3] at h
      by_cases hmax : maxDur ≤ time i
      · rw [if_pos hmax] at h
        simp at h
      · rw [if_neg hmax] at h
        by_cases hloud : thr < amp i
        · rw [if_pos hloud] at h
          refine ih true none (i + 1) j ⟨fun _ => ⟨i, Nat.lt_succ_self i, hloud⟩, ?_⟩ h
          intro s' hs'
          cases hs'
        · rw [if_neg hloud] at h
          have hquiet : amp i ≤ thr := not_lt.mp hloud
          cases hadSound with
          | false =>
            rw [if_neg (by simp)] at h
            exact absurd (hinv.2 s rfl).1 (by simp)
          | true =>
            rw [if_pos rfl] at h
            obtain ⟨-, k, hk, hsk, hwin⟩ := hinv.2 s rfl
            by_cases hsil : silDur ≤ time i - s
            · rw [if_pos hsil] at h
              have hj : i = j := by
                have h2 := Option.some.inj h
                exact (Prod.mk.injEq _ _ _ _ ▸ h2).2
              subst hj
              obtain ⟨l, hl, hla⟩ := hinv.1 rfl
              refine ⟨k, Nat.le_of_lt hk, ?_, ?_, hsk ▸ hsil⟩
              · -- the loud poll lies before k: were it inside the quiet
                -- window [k, i) it would contradict the window
                by_cases hlk : l < k
                · exact ⟨l, hlk, hla⟩
                · exact absurd (hwin l (Nat.le_of_not_lt hlk) hl) (not_le.mpr hla)
              · intro m hm hm'
                rcases Nat.lt_or_ge m i with hmi | hmi
                · exact hwin m hm hmi
                · have hmieq : m = i := Nat.le_antisymm hm' hmi
                  exact hmieq ▸ hquiet
            · rw [if_neg hsil] at h
              refine ih true (some s) (i + 1) j ⟨fun _ => ?_, fun s' hs' => ?_⟩ h
              · obtain ⟨l, hl, hla⟩ := hinv.1 rfl
                exact ⟨l, Nat.lt_succ_of_lt hl, hla⟩
              · cases hs'
                refine ⟨rfl, k, Nat.lt_succ_of_lt hk, hsk, ?_⟩
                intro m hm hm'
                rcases Nat.lt_or_ge m i with hmi | hmi
                · exact hwin m hm hmi
                · have hmieq : m = i := Nat.le_antisymm (Nat.lt_succ_iff.mp hm') hmi
                  exact hmieq ▸ hquiet

lemma pollLoop_quiet_exits_maxDuration (hq : ∀ m, amp m ≤ thr) :
    ∀ fuel silStart i r j,
      recordPollLoop time amp maxDur silDur thr fuel false silStart i = some (r, j) →
      r = ExitReason.maxDuration := by
  intro fuel
  induction fuel with
  | zero =>
    intro silStart i r j h
    rw [recordPollLoop.eq_1] at h
    cases h
  | succ n ih =>
    intro silStart i r j h
    have hloud : ¬ thr < amp i := not_lt.mpr (hq i)
    cases silStart with
    | none =>
      rw [recordPollLoop.eq_2] at h
      by_cases hmax : maxDur ≤ time i
      · rw [if_pos hmax] at h
        exact ((Prod.mk.injEq _ _ _ _ ▸ Option.some.inj h).1).symm ▸ rfl
      · rw [if_neg hmax, if_neg hloud, if_neg (by simp)] at h
        exact ih none (i + 1) r j h
    | some s =>
      rw [recordPollLoop.eq_3] at h
      by_cases hmax : maxDur ≤ time i
      · rw [if_pos hmax] at h
        exact ((Prod.mk.injEq _ _ _ _ ▸ Option.some.inj h).1).symm ▸ rfl
      · rw [if_neg hmax, if_neg hloud, if_neg (by simp)] at h
        exact ih (some s) (i + 1) r j h

lemma pollLoop_exit_position :
    ∀ fuel hadSound silStart i r j,
      recordPollLoop time amp maxDur silDur thr fuel hadSound silStart i = some (r, j) →
      i ≤ j ∧ (∀ m, i ≤ m → m < j → ¬ maxDur ≤ time m) ∧
        (r = ExitReason.maxDuration → maxDur ≤ time j) := by
  intro fuel
  induction fuel with
  | zero =>
    intro hadSound silStart i r j h
    rw [recordPollLoop.eq_1] at h
    cases h
  | succ n ih =>
    intro hadSound silStart i r j h
    by_cases hmax : maxDur ≤ time i
    · have hji : j = i ∧ r = ExitReason.maxDuration := by
        cases silStart with
        | none =>
          rw [recordPollLoop.eq_2, if_pos hmax] at h
          have h2 := Prod.mk.injEq _ _ _ _ ▸ Option.some.inj h
          exact ⟨h2.2.symm, h2.1.symm⟩
        | some s =>
          rw [recordPollLoop.eq_3, if_pos hmax] at h
          have h2 := Prod.mk.injEq _ _ _ _ ▸ Option.some.inj h
          exact ⟨h2.2.symm, h2.1.symm⟩
      refine ⟨hji.1 ▸ Nat.le_refl i, ?_, fun _ => hji.1 ▸ hmax⟩
      intro m hm hm'
      exact absurd (Nat.lt_of_lt_of_le (hji.1 ▸ hm') hm) (Nat.lt_irrefl m)
    · have hstep : ∃ silStart', recordPollLoop time amp maxDur silDur thr n
          (if thr < amp i then true else hadSound) silStart' (i + 1) = some (r, j) ∨
          (r = ExitReason.endpointed ∧ j = i) := by
        cases silStart with
        | none =>
          rw [recordPollLoop.eq_2, if_neg hmax] at h
          by_cases hloud : thr < amp i
          · rw [if_pos hloud] at h
            exact ⟨none, Or.inl (by rw [if_pos hloud]; exact h)⟩
          · rw [if_neg hloud] at h
            cases hadSound with
            | false =>
              rw [if_neg (by simp)] at h
              exact ⟨none, Or.inl (by rw [if_neg hloud]; exact h)⟩
            | true =>
              rw [if_pos rfl] at h
              exact ⟨some (time i), Or.inl (by rw [if_neg hloud]; exact h)⟩
        | some s =>
          rw [recordPollLoop.eq_3, if_neg hmax] at h
          by_cases hloud : thr < amp i
          · rw [if_pos hloud] at h
            exact ⟨none, Or.inl (by rw [if_pos hloud]; exact h)⟩
          · rw [if_neg hloud] at h
            cases hadSound with
            | false =>
              rw [if_neg (by simp)] at h
              exact ⟨some s, Or.inl (by rw [if_neg hloud]; exact h)⟩
            | true =>
              rw [if_pos rfl] at h
              by_cases hsil : silDur ≤ time i - s
              · rw [if_pos hsil] at h
                have h2 := Prod.mk.injEq _ _ _ _ ▸ Option.some.inj h
                exact ⟨some s, Or.inr ⟨h2.1.symm, h2.2.symm⟩⟩
              · rw [if_neg hsil] at h
                exact ⟨some s, Or.inl (by rw [if_neg hloud]; exact h)⟩
      obtain ⟨silStart', hcase⟩ := hstep
      cases hcase with
      | inl h' =>
        obtain ⟨h1, h2, h3⟩ := ih _ silStart' (i + 1) r j h'
        refine ⟨Nat.le_of_succ_le h1, ?_, h3⟩
        intro m hm hm'
        rcases Nat.eq_or_lt_of_le hm with hmi | hmi
        · exact hmi ▸ hmax
        · exact h2 m hmi hm'
      | inr h' =>
        refine ⟨h'.2 ▸ Nat.le_refl i, ?_, fun hr => absurd (hr ▸ h'.1 : ExitReason.maxDuration = ExitReason.endpointed) (by simp)⟩
        intro m hm hm'
        exact absurd (Nat.lt_of_lt_of_le (h'.2 ▸ hm') hm) (Nat.lt_irrefl m)

lemma pollLoop_terminates :
    ∀ fuel hadSound silStart i N, i ≤ N → N < i + fuel → maxDur ≤ time N →
      (recordPollLoop time amp maxDur silDur thr fuel hadSound silStart i).isSome = true := by
  intro fuel
  induction fuel with
  | zero =>
    intro hadSound silStart i N hiN hN _
    exact absurd (Nat.lt_of_le_of_lt hiN hN) (Nat.lt_irrefl i)
  | succ n ih =>
    intro hadSound silStart i N hiN hN hmaxN
    by_cases hmax : maxDur ≤ time i
    · cases silStart with
      | none => rw [recordPollLoop.eq_2, if_pos hmax]; rfl
      | some s => rw [recordPollLoop.eq_3, if_pos hmax]; rfl
    · have hiN' : i < N := by
        rcases Nat.eq_or_lt_of_le hiN with hEq | hLt
        · exact absurd (hEq ▸ hmaxN) hmax
        · exact hLt
      have hN' : N < (i + 1) + n := by omega
      cases silStart with
      | none =>
        rw [recordPollLoop.eq_2, if_neg hmax]
        by_cases hloud : thr < amp i
        · rw [if_pos hloud]
          exact ih true none (i + 1) N hiN' hN' hmaxN
        · rw [if_neg hloud]
          cases hadSound with
          | false =>
            rw [if_neg (by simp)]
            exact ih false none (i + 1) N hiN' hN' hmaxN
          | true =>
            rw [if_pos rfl]
            exact ih true (some (time i)) (i + 1) N hiN' hN' hmaxN
      | some s =>
        rw [recordPollLoop.eq_3, if_neg hmax]
        by_cases hloud : thr < amp i
        · rw [if_pos hloud]
          exact ih true none (i + 1) N hiN' hN' hmaxN
        · rw [if_neg hloud]
          cases hadSound with
          | false =>
            rw [if_neg (by simp)]
            exact ih false (some s) (i + 1) N hiN' hN' hmaxN
          | true =>
            rw [if_pos rfl]
            by_cases hsil : silDur ≤ time i - s
            · rw [if_pos hsil]; rfl
            · rw [if_neg hsil]
              exact ih true (some s) (i + 1) N hiN' hN' hmaxN

end PollLoopLemmas

/-! ## Claim theorems: endpointing (C3) and boundedness (C4) -/

/-- C3: the poll loop of `RecordUntilSilence`, started in its initial state,
exits via endpointing only if some earlier poll exceeded the silence
threshold and, after the last loud poll, the amplitude stayed at or below the
threshold continuously while the measured silence interval reached
`silDur`; and on a trace where no poll ever exceeds the threshold the loop
never endpoints — any exit is via the max-duration ceiling. -/
theorem c3_endpoint_requires_sound_then_silence {τ A : Type} [LinearOrder τ] [Sub τ]
    [LinearOrder A] (time : Nat → τ) (amp : Nat → A) (maxDur silDur : τ) (thr : A)
    (fuel j : Nat) :
    (recordPollLoop time amp maxDur silDur thr fuel false none 0 =
        some (ExitReason.endpointed, j) →
      SoundThenSilence time amp silDur thr j) ∧
    ((∀ m, amp m ≤ thr) →
      ∀ r, recordPollLoop time amp maxDur silDur thr fuel false none 0 = some (r, j) →
        r = ExitReason.maxDuration) := by
  constructor
  · intro h
    exact pollLoop_endpointed_of_inv time amp maxDur silDur thr fuel false none 0 j
      ⟨fun hc => absurd hc Bool.false_ne_true, fun s hs => Option.noConfusion hs⟩ h
  · intro hq r h
    exact pollLoop_quiet_exits_maxDuration time amp maxDur silDur thr hq fuel none 0 r j h

/-- Witness for C3 at a concrete trace (times in milliseconds, poll `i` at
`50·(i+1)` ms): 20 loud polls followed by quiet, silence duration 500 ms,
endpoints at poll 30 — and the sound-then-sustained-silence property holds
there. -/
theorem c3_endpoint_requires_sound_then_silence_witness :
    recordPollLoop (fun i => 50 * ((i : Int) + 1))
        (fun i => if i < 20 then (2 : Int) else 0) 15000 500 1 40 false none 0 =
      some (ExitReason.endpointed, 30) ∧
    SoundThenSilence (fun i => 50 * ((i : Int) + 1))
      (fun i => if i < 20 then (2 : Int) else 0) 500 1 30 := by
  refine ⟨by decide, ?_⟩
  exact (c3_endpoint_requires_sound_then_silence (fun i => 50 * ((i : Int) + 1))
    (fun i => if i < 20 then (2 : Int) else 0) 15000 500 1 40 30).1 (by decide)

/-- C4: the poll loop always terminates once the elapsed-time trace reaches
the max duration within the available polls, regardless of endpointing state;
moreover any exit happens at a poll no earlier than the start, every poll
strictly before the exit poll was below the ceiling (the hard ceiling wins at
the first opportunity), and a max-duration exit has reached the ceiling.  On
the concrete 2-second ceiling (2000 ms, polls every 50 ms) with a trace that
never goes quiet — and likewise with a device that delivers no data at all,
amplitude constantly zero — the loop stops at poll 39, i.e. at exactly 2000 ms
of elapsed time, not earlier and not indefinitely. -/
theorem c4_poll_loop_bounded_by_max_duration :
    (∀ {τ A : Type} [LinearOrder τ] [Sub τ] [LinearOrder A]
        (time : Nat → τ) (amp : Nat → A) (maxDur silDur : τ) (thr : A)
        (fuel : Nat) (hadSound : Bool) (silStart : Option τ) (i N : Nat),
      i ≤ N → N < i + fuel → maxDur ≤ time N →
      (recordPollLoop time amp maxDur silDur thr fuel hadSound silStart i).isSome = true) ∧
    (∀ {τ A : Type} [LinearOrder τ] [Sub τ] [LinearOrder A]
        (time : Nat → τ) (amp : Nat → A) (maxDur silDur : τ) (thr : A)
        (fuel : Nat) (hadSound : Bool) (silStart : Option τ) (i : Nat)
        (r : ExitReason) (j : Nat),
      recordPollLoop time amp maxDur silDur thr fuel hadSound silStart i = some (r, j) →
      i ≤ j ∧ (∀ m, i ≤ m → m < j → ¬ maxDur ≤ time m) ∧
        (r = ExitReason.maxDuration → maxDur ≤ time j)) ∧
    recordPollLoop (fun i => 50 * ((i : Int) + 1)) (fun _ => (2 : Int)) 2000 500 1 45
        false none 0 = some (ExitReason.maxDuration, 39) ∧
    recordPollLoop (fun i => 50 * ((i : Int) + 1)) (fun _ => (0 : Int)) 2000 500 1 45
        false none 0 = some (ExitReason.maxDuration, 39) ∧
    (50 : Int) * ((39 : Nat) + 1) = 2000 := by
  refine ⟨?_, ?_, by decide, by decide, by decide⟩
  · intro τ A _ _ _ time amp maxDur silDur thr fuel hadSound silStart i N h1 h2 h3
    exact pollLoop_terminates time amp maxDur silDur thr fuel hadSound silStart i N h1 h2 h3
  · intro τ A _ _ _ time amp maxDur silDur thr fuel hadSound silStart i r j h
    exact pollLoop_exit_position time amp maxDur silDur thr fuel hadSound silStart i r j h

/-- Witness for C4: on the never-quiet 2-second trace the termination part of
the claim applies concretely (poll 39 reaches the 2000 ms ceiling within 45
polls), so the loop provably stops. -/
theorem c4_poll_loop_bounded_by_max_duration_witness :
    (recordPollLoop (fun i => 50 * ((i : Int) + 1)) (fun _ => (2 : Int)) 2000 500 1 45
      false none 0).isSome = true :=
  c4_poll_loop_bounded_by_max_duration.1 (fun i => 50 * ((i : Int) + 1)) (fun _ => (2 : Int))
    2000 500 1 45 false none 0 39 (by decide) (by decide) (by decide)

/-! ## Claim theorems: amplitude estimator (C5) -/

lemma sumSquares_replicate (n : Nat) (v : Int) :
    sumSquares (List.replicate n v) = n * (normSample v * normSample v) := by
  rw [sumSquares, List.map_replicate, List.sum_replicate, nsmul_eq_mul]

lemma chunkRMS_replicate (n : Nat) (v : Int) (hn : 0 < n) :
    chunkRMS (List.replicate n v) = |(v : ℝ)| / 32768 := by
  have hn' : (n : ℝ) ≠ 0 := Nat.cast_ne_zero.mpr (Nat.pos_iff_ne_zero.mp hn)
  rw [chunkRMS, sumSquares_replicate, List.length_replicate]
  have hcast : ((n * (normSample v * normSample v) : ℚ) : ℝ) =
      (n : ℝ) * (((v : ℝ) / 32768) * ((v : ℝ) / 32768)) := by
    rw [normSample]
    push_cast
    ring
  rw [hcast, mul_div_cancel_left₀ _ hn', Real.sqrt_mul_self_eq_abs, abs_div]
  norm_num

/-- C5 (as amended): for every non-empty chunk the published amplitude is the
chunk RMS `sqrt(mean(sample_i^2))`; hence an all-zero chunk publishes 0 and a
constant chunk of raw value `v` publishes `|v|/32768` (the absolute normalized
amplitude); a zero-length chunk leaves the published amplitude unchanged —
and in particular performs no division. -/
theorem c5_amplitude_estimator_rms :
    (∀ (a : ℝ) (chunk : List Int), chunk ≠ [] →
      audioCallbackAmp a chunk =
        Real.sqrt ((sumSquares chunk : ℝ) / (chunk.length : ℝ))) ∧
    (∀ (a : ℝ) (n : Nat), 0 < n → audioCallbackAmp a (List.replicate n 0) = 0) ∧
    (∀ (a : ℝ) (n : Nat) (v : Int), 0 < n →
      audioCallbackAmp a (List.replicate n v) = |(v : ℝ)| / 32768) ∧
    (∀ a : ℝ, audioCallbackAmp a [] = a) := by
  have hconst : ∀ (a : ℝ) (n : Nat) (v : Int), 0 < n →
      audioCallbackAmp a (List.replicate n v) = |(v : ℝ)| / 32768 := by
    intro a n v hn
    rw [audioCallbackAmp, if_pos (by simpa using hn), chunkRMS_replicate n v hn]
  refine ⟨?_, ?_, hconst, ?_⟩
  · intro a chunk hne
    rw [audioCallbackAmp, if_pos (List.length_pos.mpr hne), chunkRMS]
  · intro a n hn
    rw [hconst a n 0 hn]
    norm_num
  · intro a
    rw [audioCallbackAmp, if_neg (by simp)]

/-- Witness for C5 (amended): a constant chunk of three samples of raw value 2
publishes `|2|/32768`, and the empty chunk leaves the previous amplitude 5
unchanged. -/
theorem c5_amplitude_estimator_rms_witness :
    (0 : Nat) < 3 ∧
    audioCallbackAmp 5 (List.replicate 3 2) = |(2 : ℝ)| / 32768 ∧
    audioCallbackAmp 5 [] = 5 :=
  ⟨by decide, c5_amplitude_estimator_rms.2.2.1 5 3 2 (by decide),
    c5_amplitude_estimator_rms.2.2.2 5⟩

/-- C5 counterexample: the claim says a zero-length chunk yields published
amplitude 0; in the source the store is guarded by `num_samples > 0`, so a
zero-length chunk leaves the previously published amplitude (here 1) in
place, which is not 0. -/
theorem c5_zero_length_chunk_counterexample :
    audioCallbackAmp 1 [] = 1 ∧ (1 : ℝ) ≠ 0 := by
  constructor
  · rw [audioCallbackAmp, if_neg (by simp)]
  · exact one_ne_zero

/-! ## Claim theorems: session lifecycle (C6) -/

/-- C6: `StartRecording` fails with the already-active error whenever a
session is running (regardless of whether the device would open), and with
the device error when the device cannot be opened; `StopRecording` fails with
the not-recording error whenever no session is active — in particular a
second consecutive `StopRecording` always fails that way — fails with the
empty-capture error when zero samples were captured, and on success returns
the accumulated samples and leaves the internal buffer empty. -/
theorem c6_session_lifecycle_errors :
    (∀ (s : RecorderState) (o : Except String Nat), s.recording = true →
      (StartRecording s o).2 = Except.error "Already recording") ∧
    (∀ (s : RecorderState) (e : String), s.recording = false →
      (StartRecording s (Except.error e)).2 =
        Except.error ("Failed to open audio device: " ++ e)) ∧
    (∀ s : RecorderState, s.recording = false →
      (StopRecording s).2 = Except.error "Not recording") ∧
    (∀ s : RecorderState,
      (StopRecording (StopRecording s).1).2 = Except.error "Not recording") ∧
    (∀ s : RecorderState, s.recording = true → s.buffer = [] →
      (StopRecording s).2 = Except.error "No audio data recorded") ∧
    (∀ s : RecorderState, s.recording = true → s.buffer ≠ [] →
      (StopRecording s).2 = Except.ok s.buffer ∧ (StopRecording s).1.buffer = []) := by
  refine ⟨?_, ?_, ?_, ?_, ?_, ?_⟩
  · intro s o hs
    simp [StartRecording, hs]
  · intro s e hs
    simp [StartRecording, hs]
  · intro s hs
    rw [StopRecording, if_neg (by rw [hs]; exact Bool.false_ne_true)]
  · intro s
    have h1 : (StopRecording s).1.recording = false := by
      by_cases hs : s.recording = true
      · rw [StopRecording, if_pos hs]
        by_cases hb : s.buffer = []
        · rw [if_pos hb]
        · rw [if_neg hb]
      · rw [StopRecording, if_neg hs]
        simpa using hs
    rw [StopRecording, if_neg (by rw [h1]; exact Bool.false_ne_true)]
  · intro s hs hb
    rw [StopRecording, if_pos hs, if_pos hb]
  · intro s hs hb
    rw [StopRecording, if_pos hs, if_neg hb]
    exact ⟨rfl, rfl⟩

/-- Witness for C6 at concrete recorder states: starting while a session runs
fails as already-active; a failed device open reports the device error;
stopping a one-sample session succeeds, moves the buffer out and leaves it
empty; stopping again fails as not-recording; stopping an empty session
fails as empty-capture. -/
theorem c6_session_lifecycle_errors_witness :
    (StartRecording ⟨true, [1], 7⟩ (Except.ok 5)).2 = Except.error "Already recording" ∧
    (StartRecording ⟨false, [], 0⟩ (Except.error "no device")).2 =
      Except.error ("Failed to open audio device: " ++ "no device") ∧
    (StopRecording ⟨true, [1], 7⟩).2 = Except.ok [1] ∧
    (StopRecording ⟨true, [1], 7⟩).1.buffer = [] ∧
    (StopRecording (StopRecording ⟨true, [1], 7⟩).1).2 = Except.error "Not recording" ∧
    (StopRecording ⟨true, [], 7⟩).2 = Except.error "No audio data recorded" :=
  ⟨c6_session_lifecycle_errors.1 ⟨true, [1], 7⟩ (Except.ok 5) rfl,
    c6_session_lifecycle_errors.2.1 ⟨false, [], 0⟩ "no device" rfl,
    (c6_session_lifecycle_errors.2.2.2.2.2 ⟨true, [1], 7⟩ rfl (by decide)).1,
    (c6_session_lifecycle_errors.2.2.2.2.2 ⟨true, [1], 7⟩ rfl (by decide)).2,
    c6_session_lifecycle_errors.2.2.2.1 ⟨true, [1], 7⟩,
    c6_session_lifecycle_errors.2.2.2.2.1 ⟨true, [], 7⟩ rfl rfl⟩

/-! ## Pipeline orchestrator (`voice_to_sql_function.cpp`)

`PerformVoiceToSql` chains recording, transcription, the translation request
and response parsing; each external collaborator is a stub supplied through
the environment, exactly at its call boundary.  `PerformVoiceToSqlWithTimeout`
extracts the schema first and then races the unit of work against the
configured deadline.  Failures are the `InvalidInputException` messages thrown
by the source; `none` models a pipeline that never returns because
`ParseSqlFromJson` diverged. -/

/-- Result of `TranscriptionEngine::TranscribePCM` (fields used by the
orchestrator). -/
structure TranscriptionResult where
  full_text : String
  success : Bool
  error : String

/-- Result of `HttpClient::Post` (fields used by the orchestrator). -/
structure HttpResponse where
  success : Bool
  body : String
  error : String

/-- The external collaborators of one pipeline invocation:
the recorder composite (`RecordUntilSilence` outcome: pcm data or error
message), the inference engine keyed by the recorded pcm, and the translation
service keyed by the request body. -/
structure PipelineEnv where
  recordResult : Except String (List ℚ)
  transcribePCM : List ℚ → TranscriptionResult
  httpPost : String → HttpResponse

/-- `PerformVoiceToSql`: record until silence, reject empty capture,
transcribe, reject empty transcript, post the JSON request built from the
pre-extracted ddl and the transcript, reject transport failure, parse the
`"sql"` field, reject its absence; on success return the generated query. -/
def PerformVoiceToSql (env : PipelineEnv) (ddl : String) (parseFuel : Nat) :
    Option (Except String String) :=
  match env.recordResult with
  | .error e => some (.error ("Failed to record audio: " ++ e))
  | .ok pcm =>
    if pcm = [] then some (.error "No speech detected. Please try again.")
    else
      let transcription := env.transcribePCM pcm
      if transcription.success = false then
        some (.error ("Transcription failed: " ++ transcription.error))
      else
        let question := transcription.full_text
        if question = "" then some (.error "No speech detected. Please try again.")
        else
          let json_body := BuildJsonRequest ddl question
          let response := env.httpPost json_body
          if response.success = false then some (.error response.error)
          else
            match ParseSqlFromJson parseFuel response.body with
            | none => none
            | some generated_sql =>
              if generated_sql = "" then
                some (.error ("Text-to-SQL proxy error: No SQL in response. Response: " ++
                  response.body))
              else some (.ok generated_sql)

/-- Environment of `PerformVoiceToSqlWithTimeout`: the pipeline collaborators,
the schema text the catalog yields on the calling thread
(`ExtractDatabaseDDL(context)`), and whether the asynchronous unit of work
completes before `future.wait_for(timeout)` elapses. -/
structure OrchestrationEnv where
  pipeline : PipelineEnv
  schemaDDL : String
  unitCompletesInTime : Bool

/-- `PerformVoiceToSqlWithTimeout`: the schema is extracted synchronously
before the unit of work is launched, so the launched unit operates on
`schemaDDL`; if the deadline elapses first the invocation fails with the
timeout message naming the configured budget. -/
def PerformVoiceToSqlWithTimeout (env : OrchestrationEnv) (voiceQueryTimeout : Nat)
    (parseFuel : Nat) : Option (Except String String) :=
  if env.unitCompletesInTime then
    PerformVoiceToSql env.pipeline env.schemaDDL parseFuel
  else
    some (.error ("Voice query timed out after " ++ toString voiceQueryTimeout ++
      " seconds. Increase whisper_voice_query_timeout if needed."))

/-! ## Claim theorems: pipeline ordering and failure priority (C1) -/

/-- C1: on a completed unit of work the orchestrator raises exactly the first
failure it encounters, in the order recording failure, empty-utterance
failure, transcription failure, empty-transcript failure, translation-request
failure, missing-field failure; on success it returns the generated query
text, and a successful return implies every stage succeeded — no partial
progress is ever returned on a failing run, whose result carries only the
failure message. -/
theorem c1_pipeline_failure_priority (env : PipelineEnv) (ddl : String) (fuel : Nat) :
    (∀ e, env.recordResult = .error e →
      PerformVoiceToSql env ddl fuel =
        some (.error ("Failed to record audio: " ++ e))) ∧
    (env.recordResult = .ok [] →
      PerformVoiceToSql env ddl fuel =
        some (.error "No speech detected. Please try again.")) ∧
    (∀ pcm, env.recordResult = .ok pcm → pcm ≠ [] →
      (env.transcribePCM pcm).success = false →
      PerformVoiceToSql env ddl fuel =
        some (.error ("Transcription failed: " ++ (env.transcribePCM pcm).error))) ∧
    (∀ pcm, env.recordResult = .ok pcm → pcm ≠ [] →
      (env.transcribePCM pcm).success = true →
      (env.transcribePCM pcm).full_text = "" →
      PerformVoiceToSql env ddl fuel =
        some (.error "No speech detected. Please try again.")) ∧
    (∀ pcm, env.recordResult = .ok pcm → pcm ≠ [] →
      (env.transcribePCM pcm).success = true →
      (env.transcribePCM pcm).full_text ≠ "" →
      (env.httpPost (BuildJsonRequest ddl (env.transcribePCM pcm).full_text)).success = false →
      PerformVoiceToSql env ddl fuel =
        some (.error
          (env.httpPost (BuildJsonRequest ddl (env.transcribePCM pcm).full_text)).error)) ∧
    (∀ pcm, env.recordResult = .ok pcm → pcm ≠ [] →
      (env.transcribePCM pcm).success = true →
      (env.transcribePCM pcm).full_text ≠ "" →
      (env.httpPost (BuildJsonRequest ddl (env.transcribePCM pcm).full_text)).success = true →
      ParseSqlFromJson fuel
          (env.httpPost (BuildJsonRequest ddl (env.transcribePCM pcm).full_text)).body =
        some "" →
      PerformVoiceToSql env ddl fuel =
        some (.error ("Text-to-SQL proxy error: No SQL in response. Response: " ++
          (env.httpPost (BuildJsonRequest ddl (env.transcribePCM pcm).full_text)).body))) ∧
    (∀ pcm q, env.recordResult = .ok pcm → pcm ≠ [] →
      (env.transcribePCM pcm).success = true →
      (env.transcribePCM pcm).full_text ≠ "" →
      (env.httpPost (BuildJsonRequest ddl (env.transcribePCM pcm).full_text)).success = true →
      ParseSqlFromJson fuel
          (env.httpPost (BuildJsonRequest ddl (env.transcribePCM pcm).full_text)).body =
        some q →
      q ≠ "" →
      PerformVoiceToSql env ddl fuel = some (.ok q)) ∧
    (∀ q, PerformVoiceToSql env ddl fuel = some (.ok q) →
      q ≠ "" ∧ ∃ pcm, env.recordResult = .ok pcm ∧ pcm ≠ [] ∧
        (env.transcribePCM pcm).success = true ∧
        (env.transcribePCM pcm).full_text ≠ "" ∧
        (env.httpPost (BuildJsonRequest ddl (env.transcribePCM pcm).full_text)).success = true ∧
        ParseSqlFromJson fuel
            (env.httpPost (BuildJsonRequest ddl (env.transcribePCM pcm).full_text)).body =
          some q) := by
  refine ⟨?_, ?_, ?_, ?_, ?_, ?_, ?_, ?_⟩
  · intro e hrec
    simp only [PerformVoiceToSql, hrec]
  · intro hrec
    simp only [PerformVoiceToSql, hrec, if_pos rfl]
    simp
  · intro pcm hrec hpcm hts
    simp only [PerformVoiceToSql, hrec, if_neg hpcm, hts, if_pos rfl]
    simp
  · intro pcm hrec hpcm hts hft
    simp [PerformVoiceToSql, hrec, hpcm, hts, hft]
  · intro pcm hrec hpcm hts hft hhttp
    simp [PerformVoiceToSql, hrec, hpcm, hts, hft, hhttp]
  · intro pcm hrec hpcm hts hft hhttp hparse
    simp [PerformVoiceToSql, hrec, hpcm, hts, hft, hhttp, hparse]
  · intro pcm q hrec hpcm hts hft hhttp hparse hq
    simp [PerformVoiceToSql, hrec, hpcm, hts, hft, hhttp, hparse, hq]
  · intro q h
    cases hrec : env.recordResult with
    | error e => simp only [PerformVoiceToSql, hrec] at h; simp at h
    | ok pcm =>
      simp only [PerformVoiceToSql, hrec] at h
      by_cases hpcm : pcm = []
      · rw [if_pos hpcm] at h; simp at h
      · rw [if_neg hpcm] at h
        by_cases hts : (env.transcribePCM pcm).success = false
        · rw [if_pos hts] at h; simp at h
        · rw [if_neg hts] at h
          have hts' : (env.transcribePCM pcm).success = true := by
            cases hsb : (env.transcribePCM pcm).success
            · exact absurd hsb hts
            · rfl
          by_cases hft : (env.transcribePCM pcm).full_text = ""
          · rw [if_pos hft] at h; simp at h
          · rw [if_neg hft] at h
            by_cases hhttp : (env.httpPost
                (BuildJsonRequest ddl (env.transcribePCM pcm).full_text)).success = false
            · rw [if_pos hhttp] at h; simp at h
            · rw [if_neg hhttp] at h
              have hhttp' : (env.httpPost
                  (BuildJsonRequest ddl (env.transcribePCM pcm).full_text)).success = true := by
                cases hsb : (env.httpPost
                    (BuildJsonRequest ddl (env.transcribePCM pcm).full_text)).success
                · exact absurd hsb hhttp
                · rfl
              cases hparse : ParseSqlFromJson fuel (env.httpPost
                  (BuildJsonRequest ddl (env.transcribePCM pcm).full_text)).body with
              | none => simp only [hparse] at h; simp at h
              | some s =>
                simp only [hparse] at h
                by_cases hs : s = ""
                · rw [if_pos hs] at h; simp at h
                · rw [if_neg hs] at h
                  simp only [Option.some.injEq, Except.ok.injEq] at h
                  subst h
                  exact ⟨hs, pcm, rfl, hpcm, hts', hft, hhttp', hparse⟩

/-- Witness for C1: the end-to-end scenario — recording yields one sample,
the inference stub transcribes "show all orders", the translation stub
answers with a body whose `"sql"` field is `SELECT * FROM orders` — and the
pipeline succeeds with exactly that query, via the success clause of the
priority theorem. -/
theorem c1_pipeline_failure_priority_witness :
    PerformVoiceToSql
        ⟨Except.ok [1], fun _ => ⟨"show all orders", true, ""⟩,
          fun _ => ⟨true, "\x7b\"sql\": \"SELECT * FROM orders\"\x7d", ""⟩⟩
        "CREATE TABLE orders(id INTEGER);" 100 =
      some (Except.ok "SELECT * FROM orders") :=
  (c1_pipeline_failure_priority
      ⟨Except.ok [1], fun _ => ⟨"show all orders", true, ""⟩,
        fun _ => ⟨true, "\x7b\"sql\": \"SELECT * FROM orders\"\x7d", ""⟩⟩
      "CREATE TABLE orders(id INTEGER);" 100).2.2.2.2.2.2.1
    [1] "SELECT * FROM orders" rfl (by decide) rfl (by decide) rfl rfl (by decide)

/-! ## Claim theorems: schema first, deadline names the budget (C2) -/

/-- C2: the schema is extracted synchronously before the cancellable unit of
work is launched — modelled by the fact that whenever the unit completes, it
computed on `schemaDDL`, the value the catalog yielded on the calling thread,
and the timeout branch never consults the unit at all — and if the deadline
elapses first, the invocation fails with the timeout error whose message
names the configured `voiceQueryTimeout` value. -/
theorem c2_schema_first_and_timeout_names_budget (env : OrchestrationEnv)
    (voiceQueryTimeout parseFuel : Nat) :
    (env.unitCompletesInTime = false →
      PerformVoiceToSqlWithTimeout env voiceQueryTimeout parseFuel =
        some (Except.error ("Voice query timed out after " ++ toString voiceQueryTimeout ++
          " seconds. Increase whisper_voice_query_timeout if needed.")) ∧
      ∃ pre post, ("Voice query timed out after " ++ toString voiceQueryTimeout ++
          " seconds. Increase whisper_voice_query_timeout if needed.") =
        pre ++ toString voiceQueryTimeout ++ post) ∧
    (env.unitCompletesInTime = true →
      PerformVoiceToSqlWithTimeout env voiceQueryTimeout parseFuel =
        PerformVoiceToSql env.pipeline env.schemaDDL parseFuel) := by
  constructor
  · intro h
    refine ⟨?_, "Voice query timed out after ",
      " seconds. Increase whisper_voice_query_timeout if needed.", rfl⟩
    rw [PerformVoiceToSqlWithTimeout, if_neg (by rw [h]; exact Bool.false_ne_true)]
  · intro h
    rw [PerformVoiceToSqlWithTimeout, if_pos h]

/-- Witness for C2: with a 30-second budget and a unit of work that misses
the deadline, the invocation fails with the timeout message naming 30; with a
unit that completes, the result is the pipeline run on the pre-extracted
schema. -/
theorem c2_schema_first_and_timeout_names_budget_witness :
    (PerformVoiceToSqlWithTimeout
        ⟨⟨Except.error "x", fun _ => ⟨"", false, ""⟩, fun _ => ⟨false, "", ""⟩⟩, "ddl", false⟩
        30 5 =
      some (Except.error ("Voice query timed out after " ++ toString 30 ++
        " seconds. Increase whisper_voice_query_timeout if needed."))) ∧
    (PerformVoiceToSqlWithTimeout
        ⟨⟨Except.error "x", fun _ => ⟨"", false, ""⟩, fun _ => ⟨false, "", ""⟩⟩, "ddl", true⟩
        30 5 =
      PerformVoiceToSql ⟨Except.error "x", fun _ => ⟨"", false, ""⟩, fun _ => ⟨false, "", ""⟩⟩
        "ddl" 5) :=
  ⟨((c2_schema_first_and_timeout_names_budget
      ⟨⟨Except.error "x", fun _ => ⟨"", false, ""⟩, fun _ => ⟨false, "", ""⟩⟩, "ddl", false⟩
      30 5).1 rfl).1,
    (c2_schema_first_and_timeout_names_budget
      ⟨⟨Except.error "x", fun _ => ⟨"", false, ""⟩, fun _ => ⟨false, "", ""⟩⟩, "ddl", true⟩
      30 5).2 rfl⟩

/-! ## Claim theorems: JSON string escape/parse round trip (C10) -/

/-- Characters whose escape survives the parser: everything at or above
0x20, plus the five control characters with named escapes.  The remaining
control characters are emitted as `\u00XX`, which `ParseJsonStringValue`
skips without producing anything. -/
def EscapeFaithful (c : Char) : Prop :=
  32 ≤ c.toNat ∨ c = Char.ofNat 8 ∨ c = Char.ofNat 12 ∨ c = '\n' ∨ c = '\r' ∨ c = '\t'

instance (c : Char) : Decidable (EscapeFaithful c) := by
  unfold EscapeFaithful
  infer_instance

lemma pjsvGo_cons_plain (c : Char) (rest acc : List Char) (h1 : c ≠ '\"') (h2 : c ≠ '\\') :
    pjsvGo (c :: rest) acc = pjsvGo rest (acc ++ [c]) :=
  pjsvGo.eq_7 acc c rest (fun h => h1 h) (fun h _ => h2 h) (fun _ _ _ _ _ h _ => h2 h)
    (fun _ h _ => h2 h) (fun _ _ h _ => h2 h)

lemma pjsvGo_escapeList :
    ∀ (l : List Char), (∀ c ∈ l, EscapeFaithful c) →
      ∀ (acc rest : List Char),
        pjsvGo (escapeList l ++ '\"' :: rest) acc = (acc ++ l, rest) := by
  intro l
  induction l with
  | nil =>
    intro _ acc rest
    simp [escapeList, pjsvGo]
  | cons c l ih =>
    intro hgood acc rest
    have hc := hgood c (List.mem_cons_self c l)
    have hl : ∀ x ∈ l, EscapeFaithful x := fun x hx => hgood x (List.mem_cons_of_mem c hx)
    have hassoc : ∀ (a : List Char) (x : Char),
        (a ++ [x]) ++ l = a ++ x :: l := by
      intro a x
      simp
    rw [escapeList, List.append_assoc]
    rcases hc with hge | hc8 | hc12 | hcn | hcr | hct
    · by_cases hq : c = '\"'
      · subst hq
        rw [show escapeChar '\"' = ['\\', '\"'] from rfl]
        simp only [List.cons_append, List.nil_append]
        rw [show pjsvGo ('\\' :: '\"' :: (escapeList l ++ '\"' :: rest)) acc =
          pjsvGo (escapeList l ++ '\"' :: rest) (acc ++ ['\"']) from rfl]
        rw [ih hl, hassoc]
      · by_cases hb : c = '\\'
        · subst hb
          rw [show escapeChar '\\' = ['\\', '\\'] from rfl]
          simp only [List.cons_append, List.nil_append]
          rw [show pjsvGo ('\\' :: '\\' :: (escapeList l ++ '\"' :: rest)) acc =
            pjsvGo (escapeList l ++ '\"' :: rest) (acc ++ ['\\']) from rfl]
          rw [ih hl, hassoc]
        · have h8 : c ≠ Char.ofNat 8 := by
            intro h
            rw [h] at hge
            exact absurd hge (by decide)
          have h12 : c ≠ Char.ofNat 12 := by
            intro h
            rw [h] at hge
            exact absurd hge (by decide)
          have hn : c ≠ '\n' := by
            intro h
            rw [h] at hge
            exact absurd hge (by decide)
          have hr : c ≠ '\r' := by
            intro h
            rw [h] at hge
            exact absurd hge (by decide)
          have ht : c ≠ '\t' := by
            intro h
            rw [h] at hge
            exact absurd hge (by decide)
          have he : escapeChar c = [c] := by
            rw [escapeChar, if_neg hq, if_neg hb, if_neg h8, if_neg h12, if_neg hn,
              if_neg hr, if_neg ht, if_neg (by omega)]
          rw [he, List.singleton_append, pjsvGo_cons_plain c _ acc hq hb, ih hl, hassoc]
    · subst hc8
      rw [show escapeChar (Char.ofNat 8) = ['\\', 'b'] from rfl]
      simp only [List.cons_append, List.nil_append]
      rw [show pjsvGo ('\\' :: 'b' :: (escapeList l ++ '\"' :: rest)) acc =
        pjsvGo (escapeList l ++ '\"' :: rest) (acc ++ [Char.ofNat 8]) from rfl]
      rw [ih hl, hassoc]
    · subst hc12
      rw [show escapeChar (Char.ofNat 12) = ['\\', 'f'] from rfl]
      simp only [List.cons_append, List.nil_append]
      rw [show pjsvGo ('\\' :: 'f' :: (escapeList l ++ '\"' :: rest)) acc =
        pjsvGo (escapeList l ++ '\"' :: rest) (acc ++ [Char.ofNat 12]) from rfl]
      rw [ih hl, hassoc]
    · subst hcn
      rw [show escapeChar '\n' = ['\\', 'n'] from rfl]
      simp only [List.cons_append, List.nil_append]
      rw [show pjsvGo ('\\' :: 'n' :: (escapeList l ++ '\"' :: rest)) acc =
        pjsvGo (escapeList l ++ '\"' :: rest) (acc ++ ['\n']) from rfl]
      rw [ih hl, hassoc]
    · subst hcr
      rw [show escapeChar '\r' = ['\\', 'r'] from rfl]
      simp only [List.cons_append, List.nil_append]
      rw [show pjsvGo ('\\' :: 'r' :: (escapeList l ++ '\"' :: rest)) acc =
        pjsvGo (escapeList l ++ '\"' :: rest) (acc ++ ['\r']) from rfl]
      rw [ih hl, hassoc]
    · subst hct
      rw [show escapeChar '\t' = ['\\', 't'] from rfl]
      simp only [List.cons_append, List.nil_append]
      rw [show pjsvGo ('\\' :: 't' :: (escapeList l ++ '\"' :: rest)) acc =
        pjsvGo (escapeList l ++ '\"' :: rest) (acc ++ ['\t']) from rfl]
      rw [ih hl, hassoc]

/-- C10 (as amended): for every string `s` all of whose characters are either
at or above 0x20 or one of the five control characters with named escapes
(backspace, form feed, newline, carriage return, tab), parsing the quoted
output of `EscapeJsonString s` recovers exactly `s` and consumes exactly
through the closing quote — so for such transcripts the value placed in the
request body by `BuildJsonRequest` round-trips byte-identically, including
quotes and backslashes.  (Control characters escaped as `\u00XX` do not
round-trip: the parser skips them.) -/
theorem c10_escape_parse_round_trip (s : String) (rest : List Char)
    (h : ∀ c ∈ s.data, EscapeFaithful c) :
    ParseJsonStringValue ('\"' :: (EscapeJsonString s).data ++ '\"' :: rest) = (s, rest) := by
  show (String.mk (pjsvGo ((EscapeJsonString s).data ++ '\"' :: rest) []).1,
    (pjsvGo ((EscapeJsonString s).data ++ '\"' :: rest) []).2) = (s, rest)
  rw [show (EscapeJsonString s).data = escapeList s.data from rfl,
    pjsvGo_escapeList s.data h [] rest]
  simp

/-- Witness for C10 (amended): a string containing a quote, a backslash, a
newline and a tab round-trips exactly, with the remainder of the input intact. -/
theorem c10_escape_parse_round_trip_witness :
    ParseJsonStringValue ('\"' :: (EscapeJsonString "a\"b\\c\nd\te").data ++ '\"' :: [',', 'x']) =
      ("a\"b\\c\nd\te", [',', 'x']) :=
  c10_escape_parse_round_trip "a\"b\\c\nd\te" [',', 'x'] (by decide)

/-- C10 counterexample: for the one-character string `\x01` the escaper emits
`\u0001`, which the parser skips entirely ("Just skip for now" in the source),
so the round trip yields the empty string, not the original: the claim fails
for control characters without named escapes. -/
theorem c10_round_trip_counterexample :
    (ParseJsonStringValue
        ('\"' :: (EscapeJsonString (String.mk [Char.ofNat 1])).data ++ ['\"'])).1 = "" ∧
    String.mk [Char.ofNat 1] ≠ "" := by
  exact ⟨rfl, by decide⟩

/-! ## Claim theorems: sql-field extraction and the nested-value bug (C7) -/

lemma skipNested_stuck_on_open (openC closeC : Char) :
    ∀ (fuel depth : Nat) (rest : List Char),
      skipNested openC closeC fuel (depth + 1) (openC :: rest) = none := by
  intro fuel
  induction fuel with
  | zero =>
    intro depth rest
    rfl
  | succ n ih =>
    intro depth rest
    rw [skipNested.eq_4, if_pos rfl]
    exact ih (depth + 1) rest

/-- C7: on a response body that is a JSON object containing the string field
`"sql": "SELECT 42"` after a field whose value is a nested object, the parser
returns no SQL (the skip loop never steps past the nested closing brace, so
the key scan mistakes it for the end of the outer object) and the pipeline
raises the missing-field error carrying the raw body — although the claim
(and the source comment "Skip nested object") require the field to be found
with other fields ignored; the same body without the nested field does yield
`SELECT 42`.  Worse, when the skipped value nests the same bracket kind two
deep, the scan loop never terminates (it returns `none` under every fuel,
because the `depth++` branch never advances the cursor). -/
theorem c7_sql_field_extraction_nested_value_bug :
    ParseSqlFromJson 100 "\x7b\"a\": \x7b\x7d, \"sql\": \"SELECT 42\"\x7d" = some "" ∧
    PerformVoiceToSql
        ⟨Except.ok [1], fun _ => ⟨"q", true, ""⟩,
          fun _ => ⟨true, "\x7b\"a\": \x7b\x7d, \"sql\": \"SELECT 42\"\x7d", ""⟩⟩ "d" 100 =
      some (Except.error ("Text-to-SQL proxy error: No SQL in response. Response: " ++
        "\x7b\"a\": \x7b\x7d, \"sql\": \"SELECT 42\"\x7d")) ∧
    ParseSqlFromJson 100 "\x7b\"sql\": \"SELECT 42\"\x7d" = some "SELECT 42" ∧
    ParseSqlFromJson 100 "\x7b\"result\": \"ok\", \"sql\": \"SELECT 42\"\x7d" =
      some "SELECT 42" ∧
    ParseSqlFromJson 100 "\x7b\"result\": \"ok\"\x7d" = some "" ∧
    ∀ fuel, ParseSqlFromJson fuel "\x7b\"a\": [[1]], \"sql\": \"SELECT 42\"\x7d" = none := by
  refine ⟨rfl, rfl, rfl, rfl, rfl, ?_⟩
  intro fuel
  cases fuel with
  | zero => rfl
  | succ n =>
    have hstep : ParseSqlFromJson (n + 1) "\x7b\"a\": [[1]], \"sql\": \"SELECT 42\"\x7d" =
        (match skipNested '[' ']' n 1 ('[' :: "1]], \"sql\": \"SELECT 42\"\x7d".data) with
          | none => none
          | some cs3 => sqlScanLoop n cs3) := rfl
    rw [hstep, skipNested_stuck_on_open '[' ']' n 0 ("1]], \"sql\": \"SELECT 42\"\x7d".data)]

/-! ## Result shaping (`voice_query_function.cpp`, C8)

`VoiceQueryBind` exposes exactly the prepared query's columns;
`VoiceQueryWithSqlBind` prepends the two VARCHAR metadata columns
`_generated_sql` and `_transcription`; `VoiceQueryExecute` is shared by both
variants and copies each underlying row unchanged at column offset 2 when
metadata is included (writing the query text and the transcript into columns
0 and 1 of every row) and at offset 0 otherwise. -/

/-- DuckDB logical column types as far as the voice query functions shape
them: VARCHAR (used for the metadata columns) or anything else. -/
inductive LType where
  | varchar : LType
  | other : Nat → LType
deriving DecidableEq

/-- A cell value: a string (`Value(std::string)`, used for the metadata
columns) or an opaque value of the underlying query. -/
inductive DVal where
  | str : String → DVal
  | other : Nat → DVal
deriving DecidableEq

/-- Bind data shared by the two variants (fields used for shaping). -/
structure VQBindData where
  generated_sql : String
  transcription : String
  includeMetadata : Bool

/-- Result schema produced by `VoiceQueryBind`: exactly the prepared
statement's column types and names. -/
def VoiceQueryBindSchema (types : List LType) (names : List String) :
    List LType × List String :=
  (types, names)

/-- Result schema produced by `VoiceQueryWithSqlBind`: two VARCHAR metadata
columns first, then the prepared statement's columns. -/
def VoiceQueryWithSqlBindSchema (types : List LType) (names : List String) :
    List LType × List String :=
  (LType.varchar :: LType.varchar :: types,
    "_generated_sql" :: "_transcription" :: names)

/-- One output row written by `VoiceQueryExecute`: when metadata is included,
columns 0 and 1 receive the generated query and the transcript and the
underlying row is copied starting at column offset 2; otherwise the
underlying row is copied at offset 0. -/
def VoiceQueryOutputRow (bd : VQBindData) (row : List DVal) : List DVal :=
  if bd.includeMetadata then
    DVal.str bd.generated_sql :: DVal.str bd.transcription :: row
  else row

/-- All rows produced by `VoiceQueryExecute` over the underlying query's
rows. -/
def VoiceQueryOutputRows (bd : VQBindData) (rows : List (List DVal)) :
    List (List DVal) :=
  rows.map (VoiceQueryOutputRow bd)

/-- C8: for every successful run, the "with provenance" variant prepends the
`_generated_sql` and `_transcription` VARCHAR columns and, on every row,
column 0 is exactly the generated query string and column 1 exactly the
transcript string, with the underlying query's columns following unchanged in
types, names, order and values; the raw variant exposes exactly the
underlying columns and rows; and the provenance output is exactly the raw
output with the two leading cells prepended to every row — the variants share
every other behavior. -/
theorem c8_provenance_columns_shape (sql tr : String) (types : List LType)
    (names : List String) (rows : List (List DVal)) :
    VoiceQueryWithSqlBindSchema types names =
      (LType.varchar :: LType.varchar :: types,
        "_generated_sql" :: "_transcription" :: names) ∧
    VoiceQueryBindSchema types names = (types, names) ∧
    VoiceQueryOutputRows ⟨sql, tr, true⟩ rows =
      rows.map (fun row => DVal.str sql :: DVal.str tr :: row) ∧
    VoiceQueryOutputRows ⟨sql, tr, false⟩ rows = rows ∧
    VoiceQueryOutputRows ⟨sql, tr, true⟩ rows =
      (VoiceQueryOutputRows ⟨sql, tr, false⟩ rows).map
        (fun row => DVal.str sql :: DVal.str tr :: row) := by
  have hrow : VoiceQueryOutputRow ⟨sql, tr, false⟩ = id := by
    funext row
    rfl
  refine ⟨rfl, rfl, rfl, ?_, ?_⟩
  · rw [VoiceQueryOutputRows, hrow, List.map_id]
  · rw [VoiceQueryOutputRows, VoiceQueryOutputRows, hrow, List.map_id]
    rfl
